import Mathlib

/-!
Shallow embedding of the mrgaze / geetee pupilometry pipeline
(src/mrgaze/pupilometry.py, src/geetee/pupilometry.py).

Images are row-major grids of natural-number pixel values.  External
library calls (OpenCV, scipy, skimage) and repository modules that are
not under src/ are parameters of the embedding: each appears as a field
of an "externals" structure, because the translated functions consume
them as black boxes.  Rational numbers stand for the Python floats
produced by the ellipse fitter; the IEEE NaN sentinels used by
`PupilometryEngine` for blink frames are made explicit by `FVal`.
-/

namespace Mrgaze

/-- Row-major grayscale image, mask, or connected-component label grid. -/
abbrev Image := List (List ℕ)

/-- Ellipse as produced by the fitter: ((x0, y0), (axis1, axis2), phi). -/
abbrev QEllipse := (ℚ × ℚ) × (ℚ × ℚ) × ℚ

/-- A Python float that is either a genuine number or the NaN sentinel. -/
inductive FVal where
  | nan : FVal
  | num : ℚ → FVal
deriving DecidableEq

/-- Engine-level ellipse whose fields may hold the NaN sentinel. -/
abbrev EEllipse := (FVal × FVal) × (FVal × FVal) × FVal

/-- Engine-level ROI rectangle ((x0,y0),(x1,y1)), possibly NaN. -/
abbrev ERect := (FVal × FVal) × (FVal × FVal)

/-- Detector candidate rectangle (x, y, w, h), one row of the array
returned by `cascade.detectMultiScale`. -/
structure Rect where
  x : ℕ
  y : ℕ
  w : ℕ
  h : ℕ
deriving DecidableEq

/-- Python slice `img[y0:y1, x0:x1]` for natural bounds. -/
def crop (img : Image) (y0 y1 x0 x1 : ℕ) : Image :=
  ((img.drop y0).take (y1 - y0)).map (fun row => (row.drop x0).take (x1 - x0))

/-- First index of the maximum element (`np.argmax` on a 1-D array). -/
def argmaxIdx (l : List ℕ) : ℕ :=
  l.findIdx (fun v => v == l.foldl max 0)

/-- First index of the minimum element (`np.argmin` on a 1-D array). -/
def argminIdxQ (l : List ℚ) : ℕ :=
  match l with
  | [] => 0
  | x :: xs => l.findIdx (fun v => decide (v = xs.foldl min x))

/-- Coordinates of the nonzero pixels in row-major order:
`np.transpose(np.nonzero(img))`, each point as (row, col). -/
def nonzeroPoints (img : Image) : List (ℕ × ℕ) :=
  img.enum.flatMap (fun rc =>
    rc.2.enum.filterMap (fun cv => if cv.2 ≠ 0 then some (rc.1, cv.1) else none))

/-- Source line `pnts[:,[0,1]] = pnts[:,[1,0]]`: exchange the two columns
of the point array (numpy advanced indexing copies the right-hand side
first, so this is an exact column swap). -/
def swapPoints (pnts : List (ℕ × ℕ)) : List (ℕ × ℕ) :=
  pnts.map Prod.swap

/-- External collaborators of FitPupil: the OpenCV Canny edge detector
and FitEllipse_RANSAC of the `fitellipse` module (not under src/). -/
structure FitExt where
  canny : Image → Image
  ransac : List (ℕ × ℕ) → Image → QEllipse

/-- src/mrgaze/pupilometry.py FitPupil (identical in src/geetee):
Canny edges of the binary mask, nonzero coordinates, column swap to
(x, y), then RANSAC fitting. -/
def FitPupil (ext : FitExt) (bw roi : Image) : QEllipse :=
  ext.ransac (swapPoints (nonzeroPoints (ext.canny bw))) roi

/-- Blob "areas": `spi.sum(blobs, labels, range(n_labels+1))` on the
flattened grids, i.e. for each label the sum of the mask pixel values
carrying that label. -/
def blobAreas (blobs labels : List ℕ) (nLabels : ℕ) : List ℕ :=
  (List.range (nLabels + 1)).map
    (fun lab => (((blobs.zip labels).filter (fun bv => bv.2 == lab)).map Prod.fst).sum)

/-- `areas.max()`: numpy maximum of the (always nonempty, nonnegative)
area array. -/
def areasMax (areas : List ℕ) : ℕ :=
  areas.foldl max 0

/-- `np.where(areas == areas.max())[0][0]`: the first index attaining
the maximum area. -/
def pupilLabel (areas : List ℕ) : ℕ :=
  areas.findIdx (fun a => a == areasMax areas)

/-- Lines 371-383 of src/mrgaze/pupilometry.py (lines 266-278 of
src/geetee/pupilometry.py): measure blob areas of the labelled opened
mask and keep the indicator mask of the first maximum-area label. -/
def segCore (blobs labels : Image) (nLabels : ℕ) : Image :=
  let areas := blobAreas blobs.flatten labels.flatten nLabels
  let lab := pupilLabel areas
  labels.map (fun row => row.map (fun l => if l = lab then 1 else 0))

/-- External collaborators of the segmenters: the cv2 / scipy / skimage
calls made by RemoveGlint, RobustRescale (mrgaze.improc, not under
src/), Otsu thresholding, k-means clustering, morphological opening and
connected-component labelling. -/
structure SegExternals where
  removeGlint : Image → Image
  robustRescale : Image → Image
  otsuBinarize : Image → Image
  whiten : List ℕ → List ℚ
  kmeansCentroids : List ℚ → List ℚ
  vq : List ℚ → List ℚ → List ℕ
  opening : Image → Image
  ccLabel : Image → Image × ℕ

/-- Rebuild a flat pixel list into the row shape of `like`
(`np.reshape(idx, roi.shape)`). -/
def unflattenLike (like : Image) (xs : List ℕ) : Image :=
  match like with
  | [] => []
  | row :: rest => xs.take row.length :: unflattenLike rest (xs.drop row.length)

/-- src/mrgaze/pupilometry.py SegmentPupil.  self-contained dispatch on
the configured method string; `none` models the NameError the Python
code raises when the method is neither "otsu" nor "kmeans" (the `blobs`
variable is then read before assignment). -/
def SegmentPupil (ext : SegExternals) (method : String) (roi0 : Image) : Option Image :=
  let roi1 := ext.removeGlint roi0
  let roi := ext.robustRescale roi1
  let blobs0 : Option Image :=
    if method = "otsu" then
      some (ext.otsuBinarize roi)
    else if method = "kmeans" then
      let data := ext.whiten roi.flatten
      let centroids := ext.kmeansCentroids data
      let pupilIdx := argminIdxQ centroids
      let idx := unflattenLike roi (ext.vq data centroids)
      some (idx.map (fun row => row.map (fun v => if v = pupilIdx then 1 else 0)))
    else none
  blobs0.map (fun b =>
    let blobs := ext.opening b
    let lab := ext.ccLabel blobs
    segCore blobs lab.1 lab.2)

/-- src/geetee/pupilometry.py SegmentPupil: always Otsu after
RobustRescale, no glint removal, no method dispatch. -/
def GSegmentPupil (ext : SegExternals) (roi0 : Image) : Image :=
  let roi := ext.robustRescale roi0
  let blobs := ext.opening (ext.otsuBinarize roi)
  let lab := ext.ccLabel blobs
  segCore blobs lab.1 lab.2

/-- The all-NaN ellipse sentinel of the blink branch. -/
def nanEllipse : EEllipse := ((.nan, .nan), (.nan, .nan), .nan)

/-- The all-NaN ROI rectangle sentinel of the blink branch. -/
def nanRect : ERect := ((.nan, .nan), (.nan, .nan))

/-- ROI rectangle `(x0,y0),(x1,y1)` of a candidate, `x1 = x+w`, `y1 = y+h`. -/
def roiRect (p : Rect) : ERect :=
  ((.num p.x, .num p.y), (.num (p.x + p.w), .num (p.y + p.h)))

/-- `pupil_roi = frame[y0:y1, x0:x1]` for candidate p. -/
def roiOf (frame : Image) (p : Rect) : Image :=
  crop frame p.y (p.y + p.h) p.x (p.x + p.w)

/-- `el = (el_roi[0][0]+x0, el_roi[0][1]+y0), el_roi[1], el_roi[2]`. -/
def translateEllipse (el : QEllipse) (p : Rect) : EEllipse :=
  ((.num (el.1.1 + (p.x : ℚ)), .num (el.1.2 + (p.y : ℚ))),
   (.num el.2.1.1, .num el.2.1.2), .num el.2.2)

/-- `sizes = np.sqrt(pupils[:,2] * pupils[:,3]); best_pupil = sizes.argmax()`.
The square root is strictly monotone on the naturals, so the first index
maximising sqrt(w*h) is exactly the first index maximising w*h; the
embedding computes the argmax over the products. -/
def bestPupil (pupils : List Rect) : ℕ :=
  argmaxIdx (pupils.map (fun p => p.w * p.h))

/-- src/mrgaze/pupilometry.py PupilometryEngine.  The LBP cascade
detector is external; its candidate list is the `pupils` argument.  A
`none` result models a Python exception escaping the engine. -/
def PupilometryEngine (frame : Image) (pupils : List Rect) (seg : SegExternals)
    (method : String) (fit : FitExt) : Option (EEllipse × ERect × Bool) :=
  if 0 < pupils.length then
    match pupils[bestPupil pupils]? with
    | none => none
    | some p =>
      match SegmentPupil seg method (roiOf frame p) with
      | none => none
      | some bw =>
        some (translateEllipse (FitPupil fit bw (roiOf frame p)) p, roiRect p, false)
  else
    some (nanEllipse, nanRect, true)

/-- src/geetee/pupilometry.py PupilometryEngine: takes the FIRST
detected candidate (`pupils[0,:]`), not the largest one. -/
def GPupilometryEngine (img : Image) (pupils : List Rect) (seg : SegExternals)
    (fit : FitExt) : EEllipse × ERect × Bool :=
  match pupils with
  | p :: _ =>
    let bw := GSegmentPupil seg (roiOf img p)
    (translateEllipse (FitPupil fit bw (roiOf img p)) p, roiRect p, false)
  | [] =>
    (nanEllipse, nanRect, true)

/-- src/mrgaze/pupilometry.py PupilArea (identical in src/geetee):
`(x0,y0), (b,a), phi_b_deg = ellipse; return np.pi * a**2`. -/
noncomputable def PupilArea (ellipse : QEllipse) : ℝ :=
  let a := ellipse.2.1.2
  Real.pi * (a : ℝ) ^ 2

/-- The numeric fields of the CSV line written by WritePupilometry:
time, corrected area, center x, center y, blink flag, artifact power,
pseudo-glint x, pseudo-glint y. -/
noncomputable def WritePupilometryRow (t : ℚ) (ellipse : QEllipse) (blink : Bool)
    (art px py : ℚ) : List ℝ :=
  [(t : ℝ), PupilArea ellipse, (ellipse.1.1 : ℝ), (ellipse.1.2 : ℝ),
   (if blink then 1 else 0), (art : ℝ), (px : ℝ), (py : ℝ)]

/-- Modelled from the spec: `utils._forceodd` is not under src/; spec
section 4.6 says kernel spans are "rounded up to the nearest odd window
length", i.e. the least odd integer at or above x. -/
def forceodd (x : ℚ) : ℤ :=
  if ⌈x⌉ % 2 = 0 then ⌈x⌉ + 1 else ⌈x⌉

/-- External collaborators of FilterPupilometry: scipy moving-median and
Gaussian (sigma = 1 sample) filters. -/
structure FilterExt where
  medfilt : ℤ → List ℚ → List ℚ
  gaussian1d : List ℚ → List ℚ

/-- A parsed pupilometry time series, rows of rational fields. -/
abbrev Series := List (List ℚ)

/-- The results directory as an association list of CSV files. -/
abbrev FileSys := List (String × Series)

/-- First-match file lookup (`os.path.isfile` + `np.genfromtxt`). -/
def lookupFile : FileSys → String → Option Series
  | [], _ => none
  | (n, s) :: rest, m => if m = n then some s else lookupFile rest m

/-- `np.savetxt`: write a (new or replacing) file. -/
def writeFile (fs : FileSys) (n : String) (s : Series) : FileSys :=
  (n, s) :: fs

/-- Column j of a row-major series (`p[:,j]`). -/
def getCol (j : ℕ) (p : Series) : List ℚ :=
  p.map (fun row => row.getD j 0)

/-- Column assignment `pf[:,j] = v` on a row-major series. -/
def setCol (j : ℕ) (v : List ℚ) (p : Series) : Series :=
  p.zipWith (fun row x => row.set j x) v

/-- Lines 594-611 of src/mrgaze/pupilometry.py: per-channel kernel
widths from the sampling interval, then column-wise filtering of the
copied array `pf = p.copy()`. -/
def filterSeries (ext : FilterExt) (p : Series) (dt : ℚ) : Series :=
  let kArea := forceodd (0.25 / dt)
  let kPx : ℤ := 3
  let kPy : ℤ := 3
  let kBlink := forceodd (0.25 / dt)
  let kArt := forceodd (1 / dt)
  let pf := p
  let pf := setCol 1 (ext.medfilt kArea (getCol 1 p)) pf
  let pf := setCol 2 (ext.medfilt kPx (getCol 2 p)) pf
  let pf := setCol 3 (ext.medfilt kPy (getCol 3 p)) pf
  let pf := setCol 4 (ext.medfilt kBlink (getCol 4 p)) pf
  let pf := setCol 5 (ext.gaussian1d (getCol 5 p)) pf
  let pf := setCol 5 (ext.medfilt kArt (getCol 5 pf)) pf
  pf

/-- src/mrgaze/pupilometry.py FilterPupilometry over the file-system
association list.  `none` models the IndexError raised by `dt = p[1,0]
- p[0,0]` when the raw series holds fewer than two rows (in particular
when the raw CSV file is empty). -/
def FilterPupilometry (ext : FilterExt) (fs : FileSys) (rawName filtName : String) :
    Option (Bool × FileSys) :=
  match lookupFile fs rawName with
  | none => some (false, fs)
  | some p =>
    match p[1]?, p[0]? with
    | some row1, some row0 =>
      match row1[0]?, row0[0]? with
      | some t1, some t0 =>
        let dt := t1 - t0
        some (true, writeFile fs filtName (filterSeries ext p dt))
      | _, _ => none
    | _, _ => none

/-! Helper lemmas about folded maxima and `findIdx`, used to reason
about the numpy `argmax` / `np.where` idioms of the source. -/

theorem base_le_foldl_max (l : List ℕ) (a : ℕ) : a ≤ l.foldl max a := by
  induction l generalizing a with
  | nil => exact le_refl a
  | cons b bs ih => exact le_trans (Nat.le_max_left a b) (ih (max a b))

theorem mem_le_foldl_max (l : List ℕ) (a x : ℕ) (hx : x ∈ l) : x ≤ l.foldl max a := by
  induction l generalizing a with
  | nil => cases hx
  | cons b bs ih =>
    rcases List.mem_cons.mp hx with h | h
    · subst h
      exact le_trans (Nat.le_max_right a x) (base_le_foldl_max bs (max a x))
    · exact ih (max a b) h

theorem foldl_max_mem (l : List ℕ) (a : ℕ) : l.foldl max a = a ∨ l.foldl max a ∈ l := by
  induction l generalizing a with
  | nil => exact Or.inl rfl
  | cons b bs ih =>
    rcases ih (max a b) with h | h
    · rcases max_choice a b with h' | h'
      · exact Or.inl (h.trans h')
      · exact Or.inr (by rw [List.foldl_cons, h, h']; exact List.mem_cons_self b bs)
    · exact Or.inr (List.mem_cons_of_mem b h)

theorem findIdx_eq_of_first {α : Type} (p : α → Bool) (l : List α) (j : ℕ)
    (hj : j < l.length) (hp : p (l.get ⟨j, hj⟩) = true)
    (hfirst : ∀ i (hi : i < l.length), i < j → p (l.get ⟨i, hi⟩) = false) :
    l.findIdx p = j := by
  induction l generalizing j with
  | nil => simp at hj
  | cons a l ih =>
    cases j with
    | zero =>
      simp only [List.get] at hp
      simp [List.findIdx_cons, hp]
    | succ j =>
      have ha : p a = false := hfirst 0 (Nat.succ_pos _) (Nat.succ_pos _)
      simp only [List.findIdx_cons, ha, cond_false]
      have hj' : j < l.length := Nat.lt_of_succ_lt_succ hj
      rw [ih j hj' hp]
      intro i hi hij
      exact hfirst (i + 1) (Nat.succ_lt_succ hi) (Nat.succ_lt_succ hij)

theorem argmaxIdx_lt_length (l : List ℕ) (h : l ≠ []) : argmaxIdx l < l.length := by
  apply List.findIdx_lt_length_of_exists
  rcases foldl_max_mem l 0 with h0 | hm
  · match l, h with
    | x :: xs, _ =>
      refine ⟨x, List.mem_cons_self x xs, ?_⟩
      have hx : x ≤ (x :: xs).foldl max 0 := mem_le_foldl_max _ 0 x (List.mem_cons_self x xs)
      rw [h0] at hx
      show (x == (x :: xs).foldl max 0) = true
      rw [h0, Nat.le_zero.mp hx]
      rfl
  · exact ⟨l.foldl max 0, hm, by simp⟩

theorem getElemq_findIdx_beq (l : List ℕ) (M : ℕ) :
    l.findIdx (fun v => v == M) < l.length →
    l[l.findIdx (fun v => v == M)]? = some M := by
  induction l with
  | nil => intro h; simp at h
  | cons a l ih =>
    intro h
    by_cases hpa : a = M
    · have h0 : (a :: l).findIdx (fun v => v == M) = 0 := by
        simp [List.findIdx_cons, hpa]
      rw [h0]
      simp [hpa]
    · have hpa' : (a == M) = false := beq_eq_false_iff_ne.mpr hpa
      have hstep : (a :: l).findIdx (fun v => v == M) = l.findIdx (fun v => v == M) + 1 := by
        simp [List.findIdx_cons, hpa']
      rw [hstep, List.getElem?_cons_succ]
      apply ih
      rw [hstep] at h
      simpa using h

theorem argmaxIdx_is_max (l : List ℕ) (h : argmaxIdx l < l.length) :
    ∀ j (hj : j < l.length), l.get ⟨j, hj⟩ ≤ l.get ⟨argmaxIdx l, h⟩ := by
  intro j hj
  have h' : l.findIdx (fun v => v == l.foldl max 0) < l.length := by
    simpa [argmaxIdx] using h
  have hval : l[argmaxIdx l]? = some (l.foldl max 0) := by
    simpa [argmaxIdx] using getElemq_findIdx_beq l (l.foldl max 0) h'
  have hval2 : l[argmaxIdx l]? = some (l.get ⟨argmaxIdx l, h⟩) := by
    rw [List.getElem?_eq_getElem h]
    rfl
  have hv : l.get ⟨argmaxIdx l, h⟩ = l.foldl max 0 :=
    Option.some_injective _ (hval2.symm.trans hval)
  rw [hv]
  exact mem_le_foldl_max l 0 _ (l.get_mem _ _)

/-! Concrete external collaborators used by witnesses: identity image
operations, constant detector and fitter outputs. -/

def segExt1 : SegExternals where
  removeGlint := id
  robustRescale := id
  otsuBinarize := fun _ => [[255]]
  whiten := fun _ => []
  kmeansCentroids := fun _ => []
  vq := fun _ _ => []
  opening := id
  ccLabel := fun m => (m.map (fun row => row.map (fun v => if v ≠ 0 then 1 else 0)), 1)

def fitExt1 : FitExt where
  canny := fun _ => [[0]]
  ransac := fun _ _ => ((1, 2), (3, 4), 5)

theorem count_map_swap (l : List (ℕ × ℕ)) (r c : ℕ) :
    (l.map Prod.swap).count (c, r) = l.count (r, c) := by
  induction l with
  | nil => rfl
  | cons a l ih =>
    rcases a with ⟨x, y⟩
    simp only [List.map_cons, Prod.swap_prod_mk, List.count_cons, ih]
    congr 1
    by_cases hx : x = r <;> by_cases hy : y = c <;> simp [hx, hy, Prod.ext_iff]

def frame1 : Image := List.replicate 8 (List.replicate 8 9)

def pupils1 : List Rect := [⟨0, 0, 2, 2⟩, ⟨1, 1, 3, 3⟩]

def pupils2 : List Rect := [⟨0, 0, 1, 1⟩, ⟨5, 5, 3, 3⟩]

/-- Claim C1 (amended): with at least one detector candidate, the
mrgaze engine selects the first candidate maximising the geometric mean
sqrt(w*h), uses its rectangle as the ROI, and, when segmentation
succeeds, returns the fitted ellipse with its center translated by the
ROI origin and blink = false; the geetee engine instead always uses the
first detected candidate. -/
theorem PupilometryEngine_candidate_selection (frame : Image) (pupils : List Rect)
    (seg : SegExternals) (method : String) (fit : FitExt) (hne : pupils ≠ []) :
    (∃ hi : bestPupil pupils < pupils.length,
      (∀ j (hj : j < pupils.length),
        Real.sqrt (((pupils.get ⟨j, hj⟩).w * (pupils.get ⟨j, hj⟩).h : ℕ) : ℝ) ≤
          Real.sqrt (((pupils.get ⟨bestPupil pupils, hi⟩).w *
            (pupils.get ⟨bestPupil pupils, hi⟩).h : ℕ) : ℝ)) ∧
      (∀ bw,
        SegmentPupil seg method (roiOf frame (pupils.get ⟨bestPupil pupils, hi⟩)) = some bw →
        PupilometryEngine frame pupils seg method fit =
          some (translateEllipse
              (FitPupil fit bw (roiOf frame (pupils.get ⟨bestPupil pupils, hi⟩)))
              (pupils.get ⟨bestPupil pupils, hi⟩),
            roiRect (pupils.get ⟨bestPupil pupils, hi⟩), false))) ∧
    (∀ q rest, pupils = q :: rest →
      GPupilometryEngine frame pupils seg fit =
        (translateEllipse (FitPupil fit (GSegmentPupil seg (roiOf frame q)) (roiOf frame q)) q,
         roiRect q, false)) := by
  have hsz : pupils.map (fun p => p.w * p.h) ≠ [] := by
    simpa [List.map_eq_nil_iff] using hne
  have hi' : argmaxIdx (pupils.map (fun p => p.w * p.h)) <
      (pupils.map (fun p => p.w * p.h)).length := argmaxIdx_lt_length _ hsz
  have hi : bestPupil pupils < pupils.length := by
    simpa [bestPupil, List.length_map] using hi'
  refine ⟨⟨hi, ?_, ?_⟩, ?_⟩
  · intro j hj
    have hj' : j < (pupils.map (fun p => p.w * p.h)).length := by
      simpa [List.length_map] using hj
    have hle := argmaxIdx_is_max (pupils.map (fun p => p.w * p.h)) hi' j hj'
    rw [List.get_eq_getElem, List.get_eq_getElem, List.getElem_map, List.getElem_map] at hle
    apply Real.sqrt_le_sqrt
    exact_mod_cast hle
  · intro bw hseg
    have hlen : 0 < pupils.length := List.length_pos.mpr hne
    have hget : pupils[bestPupil pupils]? = some (pupils.get ⟨bestPupil pupils, hi⟩) := by
      rw [List.getElem?_eq_getElem hi]
      rfl
    simp only [PupilometryEngine, if_pos hlen, hget]
    rw [hseg]
  · intro q rest hq
    subst hq
    rfl

/-- Claim C1 (amended), witness: on a concrete two-candidate frame the
mrgaze engine reports the second (larger) candidate's ROI and the
translated ellipse; the geetee engine reports the first candidate's. -/
theorem PupilometryEngine_candidate_selection_witness :
    PupilometryEngine frame1 pupils1 segExt1 "otsu" fitExt1 =
      some (((.num 2, .num 3), (.num 3, .num 4), .num 5),
        ((.num 1, .num 1), (.num 4, .num 4)), false) ∧
    GPupilometryEngine frame1 pupils1 segExt1 fitExt1 =
      (((.num 1, .num 2), (.num 3, .num 4), .num 5),
       ((.num 0, .num 0), (.num 2, .num 2)), false) := by
  obtain ⟨⟨hi, hsq, heng⟩, hgee⟩ := PupilometryEngine_candidate_selection frame1 pupils1
    segExt1 "otsu" fitExt1 (by decide)
  have hbest : pupils1.get ⟨bestPupil pupils1, hi⟩ = ⟨1, 1, 3, 3⟩ := rfl
  rw [hbest] at heng
  have hseg : GSegmentPupil segExt1 (roiOf frame1 ⟨0, 0, 2, 2⟩) = [[1]] := by decide
  constructor
  · rw [heng [[1]] (by decide)]
    simp only [translateEllipse, FitPupil, roiRect, fitExt1]
    norm_num
  · rw [hgee ⟨0, 0, 2, 2⟩ [⟨1, 1, 3, 3⟩] rfl, hseg]
    simp only [translateEllipse, FitPupil, roiRect, fitExt1]
    norm_num

/-- Claim C1, counterexample: the geetee PupilometryEngine on two
candidates whose second has the strictly larger geometric mean returns
the ROI and ellipse of the first candidate, so it does not select the
candidate with the largest geometric mean.  Here 1 * 1 and 3 * 3 are
the w * h products of the two candidates of pupils2. -/
theorem GPupilometryEngine_first_candidate_cex :
    GPupilometryEngine frame1 pupils2 segExt1 fitExt1 =
      (((.num 1, .num 2), (.num 3, .num 4), .num 5),
       ((.num 0, .num 0), (.num 1, .num 1)), false) ∧
    Real.sqrt (((1 * 1 : ℕ) : ℝ)) < Real.sqrt (((3 * 3 : ℕ) : ℝ)) ∧
    roiRect ⟨5, 5, 3, 3⟩ ≠ ((.num 0, .num 0), (.num 1, .num 1)) := by
  have hseg : GSegmentPupil segExt1 (roiOf frame1 ⟨0, 0, 1, 1⟩) = [[1]] := by decide
  have hG : GPupilometryEngine frame1 pupils2 segExt1 fitExt1 =
      (translateEllipse (FitPupil fitExt1 (GSegmentPupil segExt1 (roiOf frame1 ⟨0, 0, 1, 1⟩))
          (roiOf frame1 ⟨0, 0, 1, 1⟩)) ⟨0, 0, 1, 1⟩,
        roiRect ⟨0, 0, 1, 1⟩, false) := rfl
  refine ⟨?_, ?_, ?_⟩
  · rw [hG, hseg]
    simp only [translateEllipse, FitPupil, roiRect, fitExt1]
    norm_num
  · apply Real.sqrt_lt_sqrt
    · norm_num
    · norm_num
  · simp only [roiRect]
    intro h
    have := congrArg (fun t => t.1.1) h
    simp at this

/-- Claim C2: for every frame the engine returns blink = true iff the
detector returned zero candidate rectangles, and in that case the
ellipse and roi_rect are the all-NaN sentinels (every numeric field set
to NaN).  Stated for both the mrgaze and the geetee engines. -/
theorem PupilometryEngine_blink_iff_no_candidates (frame : Image) (pupils : List Rect)
    (seg : SegExternals) (method : String) (fit : FitExt) :
    (pupils = [] →
      PupilometryEngine frame pupils seg method fit = some (nanEllipse, nanRect, true) ∧
      GPupilometryEngine frame pupils seg fit = (nanEllipse, nanRect, true)) ∧
    (∀ el roi blink,
      PupilometryEngine frame pupils seg method fit = some (el, roi, blink) →
      (blink = true ↔ pupils = [])) ∧
    ((GPupilometryEngine frame pupils seg fit).2.2 = true ↔ pupils = []) := by
  cases pupils with
  | nil =>
    refine ⟨fun _ => ⟨rfl, rfl⟩, ?_, by simp [GPupilometryEngine]⟩
    intro el roi blink h
    simp only [PupilometryEngine, List.length_nil, lt_irrefl, if_false,
      Option.some.injEq] at h
    have hb : true = blink := congrArg (fun t => t.2.2) h
    simp [← hb]
  | cons q qs =>
    refine ⟨fun h => absurd h (List.cons_ne_nil q qs), ?_, by simp [GPupilometryEngine]⟩
    intro el roi blink h
    simp only [PupilometryEngine, List.length_cons, Nat.succ_pos, if_true] at h
    rcases hq : (q :: qs)[bestPupil (q :: qs)]? with _ | p <;> rw [hq] at h
    · cases h
    · dsimp only at h
      rcases hs : SegmentPupil seg method (roiOf frame p) with _ | bw <;> rw [hs] at h
      · cases h
      · have h2 := Option.some_injective _ h
        have hb : blink = false := (congrArg (fun t => t.2.2) h2).symm
        simp [hb]

/-- Claim C2, witness: with zero detector candidates both engines
return the all-NaN sentinels and blink = true. -/
theorem PupilometryEngine_blink_iff_no_candidates_witness :
    PupilometryEngine [[0]] [] segExt1 "otsu" fitExt1 = some (nanEllipse, nanRect, true) ∧
    GPupilometryEngine [[0]] [] segExt1 fitExt1 = (nanEllipse, nanRect, true) :=
  (PupilometryEngine_blink_iff_no_candidates [[0]] [] segExt1 "otsu" fitExt1).1 rfl

def segExt0 : SegExternals where
  removeGlint := id
  robustRescale := id
  otsuBinarize := fun _ => [[0, 0], [0, 0]]
  whiten := fun _ => []
  kmeansCentroids := fun _ => []
  vq := fun _ _ => []
  opening := id
  ccLabel := fun m => (m, 0)

theorem pupilLabel_singleton (x : ℕ) : pupilLabel [x] = 0 := by
  simp [pupilLabel, areasMax, List.findIdx_cons, Nat.zero_max]

theorem argmaxIdx_singleton (x : ℕ) : argmaxIdx [x] = 0 := by
  simp [argmaxIdx, List.findIdx_cons, Nat.zero_max]

/-- Claim C3 (amended): when the binary mask is empty after
morphological opening, largest-area selection does not crash: every
blob area is zero, the first maximal entry of the area array is the
background label 0, and SegmentPupil returns the all-ones mask covering
the whole ROI.  No segmentation failure is signalled: the engine treats
the full mask as a pupil mask and still produces a non-blink record. -/
theorem SegmentPupil_empty_mask_all_ones (frame : Image) (r : Rect) (seg : SegExternals)
    (fit : FitExt) (labels : Image)
    (hlab : seg.ccLabel (seg.opening (seg.otsuBinarize (seg.robustRescale
      (seg.removeGlint (roiOf frame r))))) = (labels, 0))
    (hblobs : ∀ row ∈ seg.opening (seg.otsuBinarize (seg.robustRescale
      (seg.removeGlint (roiOf frame r)))), ∀ v ∈ row, v = 0)
    (hzero : ∀ row ∈ labels, ∀ l ∈ row, l = 0) :
    SegmentPupil seg "otsu" (roiOf frame r) =
      some (labels.map (fun row => row.map (fun _ => 1))) ∧
    (PupilometryEngine frame [r] seg "otsu" fit).map (fun res => res.2.2) = some false := by
  have hmask : SegmentPupil seg "otsu" (roiOf frame r) =
      some (labels.map (fun row => row.map (fun _ => 1))) := by
    simp only [SegmentPupil, eq_self_iff_true, ite_true, Option.map_some']
    rw [hlab]
    simp only [segCore]
    have hx : blobAreas (seg.opening (seg.otsuBinarize (seg.robustRescale
        (seg.removeGlint (roiOf frame r))))).flatten labels.flatten 0 =
        [((((seg.opening (seg.otsuBinarize (seg.robustRescale
          (seg.removeGlint (roiOf frame r))))).flatten.zip labels.flatten).filter
            (fun bv => bv.2 == 0)).map Prod.fst).sum] := by
      simp [blobAreas, show List.range 1 = [0] from rfl]
    rw [hx, pupilLabel_singleton]
    congr 1
    apply List.map_congr_left
    intro row hrow
    apply List.map_congr_left
    intro l hl
    simp [hzero row hrow l hl]
  refine ⟨hmask, ?_⟩
  have hlen : 0 < ([r] : List Rect).length := Nat.succ_pos 0
  have hbp : bestPupil [r] = 0 := argmaxIdx_singleton (r.w * r.h)
  simp only [PupilometryEngine, if_pos hlen, hbp]
  simp only [List.getElem?_cons_zero]
  rw [hmask]
  rfl

/-- Claim C3 (amended), witness: a concrete ROI whose opened mask is
all zero yields the all-ones mask and a non-blink engine record. -/
theorem SegmentPupil_empty_mask_all_ones_witness :
    SegmentPupil segExt0 "otsu" (roiOf [[7, 7], [7, 7]] ⟨0, 0, 2, 2⟩) = some [[1, 1], [1, 1]] ∧
    (PupilometryEngine [[7, 7], [7, 7]] [⟨0, 0, 2, 2⟩] segExt0 "otsu" fitExt1).map
      (fun res => res.2.2) = some false := by
  obtain ⟨h1, h2⟩ := SegmentPupil_empty_mask_all_ones [[7, 7], [7, 7]] ⟨0, 0, 2, 2⟩ segExt0
    fitExt1 [[0, 0], [0, 0]] (by decide) (by decide) (by decide)
  exact ⟨h1.trans (by decide), h2⟩

/-- Claim C3, counterexample: on an ROI whose mask is empty after
opening, SegmentPupil does not signal any segmentation failure: it
returns the all-ones mask (the entire ROI presented as a pupil mask)
and the engine records blink = false, not a failed-fit / blink record. -/
theorem SegmentPupil_empty_mask_cex :
    SegmentPupil segExt0 "otsu" [[7, 7], [7, 7]] = some [[1, 1], [1, 1]] ∧
    (PupilometryEngine [[7, 7], [7, 7]] [⟨0, 0, 2, 2⟩] segExt0 "otsu" fitExt1).map
      (fun res => res.2.2) ≠ some true :=
  ⟨by decide, by decide⟩

theorem filter_area_eq (v lab : ℕ) (bl : List (ℕ × ℕ))
    (hpix : ∀ bv ∈ bl, bv.1 = if bv.2 = 0 then 0 else v) :
    ((bl.filter (fun bv => bv.2 == lab)).map Prod.fst).sum =
      if lab = 0 then 0 else v * (bl.map Prod.snd).count lab := by
  induction bl with
  | nil => simp
  | cons a bl ih =>
    have ha := hpix a (List.mem_cons_self a bl)
    have ih' := ih (fun bv hbv => hpix bv (List.mem_cons_of_mem a hbv))
    by_cases hl : a.2 = lab
    · by_cases h0 : lab = 0
      · have ha0 : a.1 = 0 := by rw [ha, if_pos]; rw [hl, h0]
        subst h0
        simp [List.filter_cons, hl, List.count_cons, ih', ha0]
      · have hav : a.1 = v := by
          rw [ha, if_neg]
          rw [hl]
          exact h0
        simp only [List.filter_cons, hl, beq_self_eq_true, if_true, List.map_cons,
          List.sum_cons, ih', if_neg h0, List.count_cons, beq_self_eq_true, hav,
          List.map_cons]
        rw [Nat.mul_add, Nat.mul_one]
        omega
    · have hbeq : (a.2 == lab) = false := by
        exact beq_eq_false_iff_ne.mpr hl
      simp only [List.filter_cons, hbeq, Bool.false_eq_true, if_false, ih',
        List.map_cons, List.count_cons, hbeq]
      by_cases h0 : lab = 0
      · simp [h0]
      · simp [if_neg h0]

/-- Claim C4: for a mask whose labelling has a strictly-first maximal
component ℓ (in particular, any mask holding two or more disjoint
components of pairwise different areas has a unique such ℓ, the largest
one), SegmentPupil returns the indicator mask of exactly that
component, independent of which label order the labelling chose; on a
tie the first label in the deterministic label order wins. -/
theorem SegmentPupil_largest_component (seg : SegExternals) (roi : Image)
    (labels : Image) (n v ℓ : ℕ)
    (hlab : seg.ccLabel (seg.opening (seg.otsuBinarize (seg.robustRescale
      (seg.removeGlint roi)))) = (labels, n))
    (hpix : ∀ bv ∈ (seg.opening (seg.otsuBinarize (seg.robustRescale
      (seg.removeGlint roi)))).flatten.zip labels.flatten,
      bv.1 = if bv.2 = 0 then 0 else v)
    (hlen : (seg.opening (seg.otsuBinarize (seg.robustRescale
      (seg.removeGlint roi)))).flatten.length = labels.flatten.length)
    (hv : 0 < v)
    (hbound : ∀ l ∈ labels.flatten, l ≤ n)
    (hl1 : 1 ≤ ℓ) (hln : ℓ ≤ n)
    (hpos : 0 < labels.flatten.count ℓ)
    (hmax : ∀ k ∈ List.range (n + 1), 1 ≤ k →
      labels.flatten.count k ≤ labels.flatten.count ℓ)
    (hfirst : ∀ k ∈ List.range (n + 1), 1 ≤ k → k < ℓ →
      labels.flatten.count k < labels.flatten.count ℓ) :
    SegmentPupil seg "otsu" roi =
      some (labels.map (fun row => row.map (fun l => if l = ℓ then 1 else 0))) := by
  simp only [SegmentPupil, eq_self_iff_true, ite_true, Option.map_some']
  rw [hlab]
  simp only [segCore]
  have hsnd : (((seg.opening (seg.otsuBinarize (seg.robustRescale
      (seg.removeGlint roi)))).flatten.zip labels.flatten).map Prod.snd) = labels.flatten :=
    List.map_snd_zip _ _ (le_of_eq hlen.symm)
  have hareas : blobAreas (seg.opening (seg.otsuBinarize (seg.robustRescale
      (seg.removeGlint roi)))).flatten labels.flatten n =
      (List.range (n + 1)).map
        (fun k => if k = 0 then 0 else v * labels.flatten.count k) := by
    unfold blobAreas
    refine List.map_congr_left ?_
    intro k _
    rw [filter_area_eq v k _ hpix, hsnd]
  rw [hareas]
  have hcnt : 0 < v * labels.flatten.count ℓ := Nat.mul_pos hv hpos
  have hl0 : ℓ ≠ 0 := Nat.one_le_iff_ne_zero.mp hl1
  have hub : ∀ y ∈ (List.range (n + 1)).map
      (fun k => if k = 0 then 0 else v * labels.flatten.count k),
      y ≤ v * labels.flatten.count ℓ := by
    intro y hy
    obtain ⟨k, hk, hky⟩ := List.mem_map.mp hy
    subst hky
    by_cases h0 : k = 0
    · simp [h0]
    · rw [if_neg h0]
      exact Nat.mul_le_mul_left v (hmax k hk (Nat.one_le_iff_ne_zero.mpr h0))
  have hmemℓ : (v * labels.flatten.count ℓ) ∈ (List.range (n + 1)).map
      (fun k => if k = 0 then 0 else v * labels.flatten.count k) := by
    refine List.mem_map.mpr ⟨ℓ, List.mem_range.mpr (Nat.lt_succ_of_le hln), ?_⟩
    rw [if_neg hl0]
  have hMval : areasMax ((List.range (n + 1)).map
      (fun k => if k = 0 then 0 else v * labels.flatten.count k)) =
      v * labels.flatten.count ℓ := by
    apply le_antisymm
    · rcases foldl_max_mem ((List.range (n + 1)).map
        (fun k => if k = 0 then 0 else v * labels.flatten.count k)) 0 with h | h
      · rw [areasMax, h]
        exact Nat.zero_le _
      · exact hub _ h
    · exact mem_le_foldl_max _ 0 _ hmemℓ
  have hplab : pupilLabel ((List.range (n + 1)).map
      (fun k => if k = 0 then 0 else v * labels.flatten.count k)) = ℓ := by
    unfold pupilLabel
    rw [hMval]
    have hlenR : ℓ < ((List.range (n + 1)).map
        (fun k => if k = 0 then 0 else v * labels.flatten.count k)).length := by
      simpa using Nat.lt_succ_of_le hln
    apply findIdx_eq_of_first _ _ ℓ hlenR
    · have hgetℓ : ((List.range (n + 1)).map
          (fun k => if k = 0 then 0 else v * labels.flatten.count k)).get ⟨ℓ, hlenR⟩ =
          v * labels.flatten.count ℓ := by
        rw [List.get_eq_getElem, List.getElem_map, List.getElem_range, if_neg hl0]
      rw [hgetℓ]
      exact beq_self_eq_true _
    · intro i hi hiℓ
      have hgeti : ((List.range (n + 1)).map
          (fun k => if k = 0 then 0 else v * labels.flatten.count k)).get ⟨i, hi⟩ =
          if i = 0 then 0 else v * labels.flatten.count i := by
        rw [List.get_eq_getElem, List.getElem_map, List.getElem_range]
      rw [hgeti]
      by_cases h0 : i = 0
      · rw [if_pos h0]
        exact beq_eq_false_iff_ne.mpr (Nat.ne_of_lt hcnt)
      · rw [if_neg h0]
        apply beq_eq_false_iff_ne.mpr
        apply Nat.ne_of_lt
        have hirange : i ∈ List.range (n + 1) := by
          apply List.mem_range.mpr
          calc i < ℓ := hiℓ
            _ < n + 1 := Nat.lt_succ_of_le hln
        exact mul_lt_mul_of_pos_left
          (hfirst i hirange (Nat.one_le_iff_ne_zero.mpr h0) hiℓ) hv
  rw [hplab]

def segExt4 : SegExternals where
  removeGlint := id
  robustRescale := id
  otsuBinarize := fun _ => [[0, 255, 0], [255, 255, 0]]
  whiten := fun _ => []
  kmeansCentroids := fun _ => []
  vq := fun _ _ => []
  opening := id
  ccLabel := fun _ => ([[0, 1, 0], [2, 2, 0]], 2)

/-- Claim C4, witness: a two-component mask (areas 1 and 2) labelled
with the larger component second still yields the indicator mask of the
larger component. -/
theorem SegmentPupil_largest_component_witness :
    SegmentPupil segExt4 "otsu" [[9, 9, 9], [9, 9, 9]] = some [[0, 0, 0], [1, 1, 0]] := by
  have h := SegmentPupil_largest_component segExt4 [[9, 9, 9], [9, 9, 9]]
    [[0, 1, 0], [2, 2, 0]] 2 255 2 (by decide) (by decide) (by decide) (by decide)
    (by decide) (by decide) (by decide) (by decide) (by decide) (by decide)
  exact h.trans (by decide)

/-! Helper lemmas for column access and assignment on row-major series. -/

theorem getCol_setCol_eq (j : ℕ) (v : List ℚ) (p : Series)
    (hlen : v.length = p.length) (hw : ∀ row ∈ p, j < row.length) :
    getCol j (setCol j v p) = v := by
  induction p generalizing v with
  | nil =>
    cases v with
    | nil => rfl
    | cons x v => simp at hlen
  | cons row p ih =>
    cases v with
    | nil => simp at hlen
    | cons x v =>
      have hrow : j < row.length := hw row (List.mem_cons_self row p)
      simp only [setCol, List.zipWith_cons_cons, getCol, List.map_cons]
      congr 1
      · rw [List.getD_eq_getElem?_getD, List.getElem?_set_eq_of_lt x hrow]
        rfl
      · have := ih v (by simpa using hlen) (fun r hr => hw r (List.mem_cons_of_mem row hr))
        simpa [getCol, setCol] using this

theorem getCol_setCol_ne (i j : ℕ) (hij : i ≠ j) (v : List ℚ) (p : Series)
    (hlen : v.length = p.length) :
    getCol j (setCol i v p) = getCol j p := by
  induction p generalizing v with
  | nil => rfl
  | cons row p ih =>
    cases v with
    | nil => simp at hlen
    | cons x v =>
      simp only [setCol, List.zipWith_cons_cons, getCol, List.map_cons]
      congr 1
      · rw [List.getD_eq_getElem?_getD, List.getElem?_set_ne hij,
          List.getD_eq_getElem?_getD]
      · have := ih v (by simpa using hlen)
        simpa [getCol, setCol] using this

theorem setCol_length (i : ℕ) (v : List ℚ) (p : Series) (hlen : v.length = p.length) :
    (setCol i v p).length = p.length := by
  simp [setCol, List.length_zipWith, hlen]

theorem setCol_map_length (i : ℕ) (v : List ℚ) (p : Series)
    (hlen : v.length = p.length) :
    (setCol i v p).map List.length = p.map List.length := by
  induction p generalizing v with
  | nil => rfl
  | cons row p ih =>
    cases v with
    | nil => simp at hlen
    | cons x v =>
      simp only [setCol, List.zipWith_cons_cons, List.map_cons, List.length_set]
      rw [show List.zipWith (fun row x => row.set i x) p v = setCol i v p from rfl]
      rw [ih v (by simpa using hlen)]

theorem width_setCol (i c : ℕ) (v : List ℚ) (p : Series)
    (hw : ∀ r ∈ p, c < r.length) :
    ∀ r ∈ setCol i v p, c < r.length := by
  induction p generalizing v with
  | nil => intro r hr; cases hr
  | cons row p ih =>
    cases v with
    | nil => intro r hr; cases hr
    | cons x v =>
      intro r hr
      simp only [setCol, List.zipWith_cons_cons] at hr
      rcases List.mem_cons.mp hr with h | h
      · subst h
        rw [List.length_set]
        exact hw row (List.mem_cons_self row p)
      · exact ih v (fun s hs => hw s (List.mem_cons_of_mem row hs)) r h

theorem forceodd_odd (x : ℚ) : Odd (forceodd x) := by
  unfold forceodd
  split_ifs with h
  · exact (Int.even_iff.mpr h).add_one
  · rcases Int.emod_two_eq_zero_or_one ⌈x⌉ with h2 | h2
    · exact absurd h2 h
    · exact Int.odd_iff.mpr h2

theorem forceodd_pos (x : ℚ) (hx : 0 < x) : 1 ≤ forceodd x := by
  have hc : 0 < ⌈x⌉ := Int.ceil_pos.mpr hx
  unfold forceodd
  split_ifs <;> omega

/-- Shape and per-channel behaviour of the column-filtering pass, under
the scipy contract that both filters preserve length. -/
theorem filterSeries_cols (ext : FilterExt) (p : Series) (dt : ℚ)
    (hmed : ∀ k xs, (ext.medfilt k xs).length = xs.length)
    (hgauss : ∀ xs, (ext.gaussian1d xs).length = xs.length)
    (hw : ∀ row ∈ p, 5 < row.length) :
    getCol 1 (filterSeries ext p dt) = ext.medfilt (forceodd (0.25 / dt)) (getCol 1 p) ∧
    getCol 2 (filterSeries ext p dt) = ext.medfilt 3 (getCol 2 p) ∧
    getCol 3 (filterSeries ext p dt) = ext.medfilt 3 (getCol 3 p) ∧
    getCol 4 (filterSeries ext p dt) = ext.medfilt (forceodd (0.25 / dt)) (getCol 4 p) ∧
    getCol 5 (filterSeries ext p dt) =
      ext.medfilt (forceodd (1 / dt)) (ext.gaussian1d (getCol 5 p)) ∧
    getCol 0 (filterSeries ext p dt) = getCol 0 p ∧
    getCol 6 (filterSeries ext p dt) = getCol 6 p ∧
    getCol 7 (filterSeries ext p dt) = getCol 7 p ∧
    (filterSeries ext p dt).length = p.length ∧
    (filterSeries ext p dt).map List.length = p.map List.length := by
  have hvlen : ∀ (k : ℤ) (c : ℕ), (ext.medfilt k (getCol c p)).length = p.length := by
    intro k c
    rw [hmed]
    exact List.length_map _ _
  simp only [filterSeries]
  set v1 := ext.medfilt (forceodd (0.25 / dt)) (getCol 1 p) with hv1
  set v2 := ext.medfilt 3 (getCol 2 p) with hv2
  set v3 := ext.medfilt 3 (getCol 3 p) with hv3
  set v4 := ext.medfilt (forceodd (0.25 / dt)) (getCol 4 p) with hv4
  set v5 := ext.gaussian1d (getCol 5 p) with hv5
  set p1 := setCol 1 v1 p with hp1
  set p2 := setCol 2 v2 p1 with hp2
  set p3 := setCol 3 v3 p2 with hp3
  set p4 := setCol 4 v4 p3 with hp4
  set p5 := setCol 5 v5 p4 with hp5
  set v6 := ext.medfilt (forceodd (1 / dt)) (getCol 5 p5) with hv6
  set p6 := setCol 5 v6 p5 with hp6
  have hl1 : v1.length = p.length := hvlen _ 1
  have hlp1 : p1.length = p.length := setCol_length _ _ _ hl1
  have hw1 : ∀ r ∈ p1, 5 < r.length := width_setCol _ _ _ _ hw
  have hl2 : v2.length = p1.length := (hvlen _ 2).trans hlp1.symm
  have hlp2 : p2.length = p.length := (setCol_length _ _ _ hl2).trans hlp1
  have hw2 : ∀ r ∈ p2, 5 < r.length := width_setCol _ _ _ _ hw1
  have hl3 : v3.length = p2.length := (hvlen _ 3).trans hlp2.symm
  have hlp3 : p3.length = p.length := (setCol_length _ _ _ hl3).trans hlp2
  have hw3 : ∀ r ∈ p3, 5 < r.length := width_setCol _ _ _ _ hw2
  have hl4 : v4.length = p3.length := (hvlen _ 4).trans hlp3.symm
  have hlp4 : p4.length = p.length := (setCol_length _ _ _ hl4).trans hlp3
  have hw4 : ∀ r ∈ p4, 5 < r.length := width_setCol _ _ _ _ hw3
  have hl5 : v5.length = p4.length := by
    rw [hv5, hgauss]
    exact (List.length_map _ _).trans hlp4.symm
  have hlp5 : p5.length = p.length := (setCol_length _ _ _ hl5).trans hlp4
  have hw5 : ∀ r ∈ p5, 5 < r.length := width_setCol _ _ _ _ hw4
  have hl6 : v6.length = p5.length := by
    rw [hv6, hmed]
    exact List.length_map _ _
  have hlp6 : p6.length = p.length := (setCol_length _ _ _ hl6).trans hlp5
  have hg5p5 : getCol 5 p5 = v5 := getCol_setCol_eq 5 v5 p4 hl5 hw4
  refine ⟨?_, ?_, ?_, ?_, ?_, ?_, ?_, ?_, hlp6, ?_⟩
  · rw [hp6, getCol_setCol_ne 5 1 (by omega) _ _ hl6,
      hp5, getCol_setCol_ne 5 1 (by omega) _ _ hl5,
      hp4, getCol_setCol_ne 4 1 (by omega) _ _ hl4,
      hp3, getCol_setCol_ne 3 1 (by omega) _ _ hl3,
      hp2, getCol_setCol_ne 2 1 (by omega) _ _ hl2,
      hp1, getCol_setCol_eq 1 v1 p hl1 (fun r hr => by have h5 := hw r hr; omega)]
  · rw [hp6, getCol_setCol_ne 5 2 (by omega) _ _ hl6,
      hp5, getCol_setCol_ne 5 2 (by omega) _ _ hl5,
      hp4, getCol_setCol_ne 4 2 (by omega) _ _ hl4,
      hp3, getCol_setCol_ne 3 2 (by omega) _ _ hl3,
      hp2, getCol_setCol_eq 2 v2 p1 hl2 (fun r hr => by have h5 := hw1 r hr; omega)]
  · rw [hp6, getCol_setCol_ne 5 3 (by omega) _ _ hl6,
      hp5, getCol_setCol_ne 5 3 (by omega) _ _ hl5,
      hp4, getCol_setCol_ne 4 3 (by omega) _ _ hl4,
      hp3, getCol_setCol_eq 3 v3 p2 hl3 (fun r hr => by have h5 := hw2 r hr; omega)]
  · rw [hp6, getCol_setCol_ne 5 4 (by omega) _ _ hl6,
      hp5, getCol_setCol_ne 5 4 (by omega) _ _ hl5,
      hp4, getCol_setCol_eq 4 v4 p3 hl4 (fun r hr => by have h5 := hw3 r hr; omega)]
  · rw [hp6, getCol_setCol_eq 5 v6 p5 hl6 hw5, hv6, hg5p5]
  · rw [hp6, getCol_setCol_ne 5 0 (by omega) _ _ hl6,
      hp5, getCol_setCol_ne 5 0 (by omega) _ _ hl5,
      hp4, getCol_setCol_ne 4 0 (by omega) _ _ hl4,
      hp3, getCol_setCol_ne 3 0 (by omega) _ _ hl3,
      hp2, getCol_setCol_ne 2 0 (by omega) _ _ hl2,
      hp1, getCol_setCol_ne 1 0 (by omega) _ _ hl1]
  · rw [hp6, getCol_setCol_ne 5 6 (by omega) _ _ hl6,
      hp5, getCol_setCol_ne 5 6 (by omega) _ _ hl5,
      hp4, getCol_setCol_ne 4 6 (by omega) _ _ hl4,
      hp3, getCol_setCol_ne 3 6 (by omega) _ _ hl3,
      hp2, getCol_setCol_ne 2 6 (by omega) _ _ hl2,
      hp1, getCol_setCol_ne 1 6 (by omega) _ _ hl1]
  · rw [hp6, getCol_setCol_ne 5 7 (by omega) _ _ hl6,
      hp5, getCol_setCol_ne 5 7 (by omega) _ _ hl5,
      hp4, getCol_setCol_ne 4 7 (by omega) _ _ hl4,
      hp3, getCol_setCol_ne 3 7 (by omega) _ _ hl3,
      hp2, getCol_setCol_ne 2 7 (by omega) _ _ hl2,
      hp1, getCol_setCol_ne 1 7 (by omega) _ _ hl1]
  · rw [hp6, setCol_map_length _ _ _ hl6,
      hp5, setCol_map_length _ _ _ hl5,
      hp4, setCol_map_length _ _ _ hl4,
      hp3, setCol_map_length _ _ _ hl3,
      hp2, setCol_map_length _ _ _ hl2,
      hp1, setCol_map_length _ _ _ hl1]

/-- The successful run of FilterPupilometry: with a readable raw series
of at least two rows, the filtered series for dt = t1 - t0 is written
to the target file and True is returned. -/
theorem FilterPupilometry_run (ext : FilterExt) (fs : FileSys)
    (rawName filtName : String) (p : Series) (row0 row1 : List ℚ) (t0 t1 : ℚ)
    (hraw : lookupFile fs rawName = some p)
    (h1 : p[1]? = some row1) (h0 : p[0]? = some row0)
    (ht1 : row1[0]? = some t1) (ht0 : row0[0]? = some t0) :
    FilterPupilometry ext fs rawName filtName =
      some (true, writeFile fs filtName (filterSeries ext p (t1 - t0))) := by
  unfold FilterPupilometry
  rw [hraw]
  dsimp only
  rw [h1, h0]
  dsimp only
  rw [ht1, ht0]

def filtExtW : FilterExt where
  medfilt := fun _ xs => xs
  gaussian1d := fun xs => xs

def pW : Series := [[0, 0, 0, 0, 0, 0], [1, 1, 1, 1, 1, 1]]

def fsW : FileSys := [("raw.csv", pW)]

/-- Claim C5: the filter derives dt from the first two timestamps, the
area and blink channels get a moving median over the odd-forced kernel
spanning 0.25 s, columns x and y a 3-sample median, the artifact-power
channel a one-sample Gaussian followed by a median over the odd-forced
1.0 s kernel, and for positive dt every median kernel width is an odd
integer of at least 1. -/
theorem FilterPupilometry_kernel_widths (ext : FilterExt) (fs : FileSys)
    (rawName filtName : String) (p : Series) (row0 row1 : List ℚ) (t0 t1 : ℚ)
    (hraw : lookupFile fs rawName = some p)
    (h1 : p[1]? = some row1) (h0 : p[0]? = some row0)
    (ht1 : row1[0]? = some t1) (ht0 : row0[0]? = some t0)
    (hmed : ∀ k xs, (ext.medfilt k xs).length = xs.length)
    (hgauss : ∀ xs, (ext.gaussian1d xs).length = xs.length)
    (hw : ∀ row ∈ p, 5 < row.length) :
    FilterPupilometry ext fs rawName filtName =
      some (true, writeFile fs filtName (filterSeries ext p (t1 - t0))) ∧
    getCol 1 (filterSeries ext p (t1 - t0)) =
      ext.medfilt (forceodd (0.25 / (t1 - t0))) (getCol 1 p) ∧
    getCol 2 (filterSeries ext p (t1 - t0)) = ext.medfilt 3 (getCol 2 p) ∧
    getCol 3 (filterSeries ext p (t1 - t0)) = ext.medfilt 3 (getCol 3 p) ∧
    getCol 4 (filterSeries ext p (t1 - t0)) =
      ext.medfilt (forceodd (0.25 / (t1 - t0))) (getCol 4 p) ∧
    getCol 5 (filterSeries ext p (t1 - t0)) =
      ext.medfilt (forceodd (1 / (t1 - t0))) (ext.gaussian1d (getCol 5 p)) ∧
    (0 < t1 - t0 →
      Odd (forceodd (0.25 / (t1 - t0))) ∧ 1 ≤ forceodd (0.25 / (t1 - t0)) ∧
      Odd (forceodd (1 / (t1 - t0))) ∧ 1 ≤ forceodd (1 / (t1 - t0)) ∧
      Odd (3 : ℤ) ∧ 1 ≤ (3 : ℤ)) := by
  obtain ⟨e1, e2, e3, e4, e5, -, -, -, -, -⟩ :=
    filterSeries_cols ext p (t1 - t0) hmed hgauss hw
  refine ⟨FilterPupilometry_run ext fs rawName filtName p row0 row1 t0 t1 hraw h1 h0 ht1 ht0,
    e1, e2, e3, e4, e5, ?_⟩
  intro hdt
  have hq : (0 : ℚ) < 0.25 / (t1 - t0) := by positivity
  have hq1 : (0 : ℚ) < 1 / (t1 - t0) := by positivity
  exact ⟨forceodd_odd _, forceodd_pos _ hq, forceodd_odd _, forceodd_pos _ hq1,
    by decide, by decide⟩

/-- Claim C5, witness: a concrete two-row series with unit sampling
interval is filtered successfully and both odd-forced kernels are odd. -/
theorem FilterPupilometry_kernel_widths_witness :
    FilterPupilometry filtExtW fsW "raw.csv" "filt.csv" =
      some (true, writeFile fsW "filt.csv" (filterSeries filtExtW pW ((1 : ℚ) - 0))) ∧
    Odd (forceodd (0.25 / ((1 : ℚ) - 0))) ∧ Odd (forceodd (1 / ((1 : ℚ) - 0))) := by
  obtain ⟨hrun, -, -, -, -, -, hpar⟩ := FilterPupilometry_kernel_widths filtExtW fsW
    "raw.csv" "filt.csv" pW [0, 0, 0, 0, 0, 0] [1, 1, 1, 1, 1, 1] 0 1 rfl rfl rfl rfl rfl
    (fun _ _ => rfl) (fun _ => rfl) (by decide)
  have hpos : (0 : ℚ) < 1 - 0 := by norm_num
  exact ⟨hrun, (hpar hpos).1, (hpar hpos).2.2.1⟩

/-- Claim C6: the filtered series has the same number of rows and the
same column layout as the raw series, each channel is obtained from the
matching raw channel alone, the result is written to the distinct
filtered file, and the raw series (its file entry and the in-memory
rows read from it) is left unchanged. -/
theorem FilterPupilometry_fresh_output (ext : FilterExt) (fs : FileSys)
    (rawName filtName : String) (p : Series) (row0 row1 : List ℚ) (t0 t1 : ℚ)
    (hraw : lookupFile fs rawName = some p)
    (h1 : p[1]? = some row1) (h0 : p[0]? = some row0)
    (ht1 : row1[0]? = some t1) (ht0 : row0[0]? = some t0)
    (hne : rawName ≠ filtName)
    (hmed : ∀ k xs, (ext.medfilt k xs).length = xs.length)
    (hgauss : ∀ xs, (ext.gaussian1d xs).length = xs.length)
    (hw : ∀ row ∈ p, 5 < row.length) :
    FilterPupilometry ext fs rawName filtName =
      some (true, writeFile fs filtName (filterSeries ext p (t1 - t0))) ∧
    lookupFile (writeFile fs filtName (filterSeries ext p (t1 - t0))) rawName = some p ∧
    lookupFile (writeFile fs filtName (filterSeries ext p (t1 - t0))) filtName =
      some (filterSeries ext p (t1 - t0)) ∧
    (filterSeries ext p (t1 - t0)).length = p.length ∧
    (filterSeries ext p (t1 - t0)).map List.length = p.map List.length ∧
    getCol 0 (filterSeries ext p (t1 - t0)) = getCol 0 p ∧
    getCol 6 (filterSeries ext p (t1 - t0)) = getCol 6 p ∧
    getCol 7 (filterSeries ext p (t1 - t0)) = getCol 7 p := by
  obtain ⟨-, -, -, -, -, e0, e6, e7, elen, emap⟩ :=
    filterSeries_cols ext p (t1 - t0) hmed hgauss hw
  refine ⟨FilterPupilometry_run ext fs rawName filtName p row0 row1 t0 t1 hraw h1 h0 ht1 ht0,
    ?_, ?_, elen, emap, e0, e6, e7⟩
  · show lookupFile ((filtName, filterSeries ext p (t1 - t0)) :: fs) rawName = some p
    unfold lookupFile
    rw [if_neg hne]
    exact hraw
  · show lookupFile ((filtName, filterSeries ext p (t1 - t0)) :: fs) filtName =
      some (filterSeries ext p (t1 - t0))
    unfold lookupFile
    rw [if_pos rfl]

/-- Claim C6, witness: on a concrete two-row series the raw file entry
is unchanged and the filtered file holds a series of the same shape. -/
theorem FilterPupilometry_fresh_output_witness :
    lookupFile (writeFile fsW "filt.csv" (filterSeries filtExtW pW ((1 : ℚ) - 0)))
      "raw.csv" = some pW ∧
    (filterSeries filtExtW pW ((1 : ℚ) - 0)).map List.length = pW.map List.length := by
  obtain ⟨-, hkeep, -, -, hmap, -⟩ := FilterPupilometry_fresh_output filtExtW fsW
    "raw.csv" "filt.csv" pW [0, 0, 0, 0, 0, 0] [1, 1, 1, 1, 1, 1] 0 1 rfl rfl rfl rfl rfl
    (by decide) (fun _ _ => rfl) (fun _ => rfl) (by decide)
  exact ⟨hkeep, hmap⟩

/-- Claim C7 (amended): when the raw series file is absent,
FilterPupilometry reports and returns False without writing anything,
and the run is otherwise unaffected; but when the raw file is present
and empty, the read of the first two timestamps goes out of range and
the call fails instead of skipping gracefully. -/
theorem FilterPupilometry_missing_raw (ext : FilterExt) (fs : FileSys)
    (rawName filtName : String) :
    (lookupFile fs rawName = none →
      FilterPupilometry ext fs rawName filtName = some (false, fs)) ∧
    (lookupFile fs rawName = some [] →
      FilterPupilometry ext fs rawName filtName = none) := by
  constructor
  · intro h
    unfold FilterPupilometry
    rw [h]
  · intro h
    unfold FilterPupilometry
    rw [h]
    rfl

/-- Claim C7 (amended), witness: an absent raw file is skipped with
False; a present-but-empty raw file makes the call fail. -/
theorem FilterPupilometry_missing_raw_witness :
    FilterPupilometry filtExtW [] "raw.csv" "filt.csv" = some (false, []) ∧
    FilterPupilometry filtExtW [("raw.csv", [])] "raw.csv" "filt.csv" = none :=
  ⟨(FilterPupilometry_missing_raw filtExtW [] "raw.csv" "filt.csv").1 rfl,
   (FilterPupilometry_missing_raw filtExtW [("raw.csv", [])] "raw.csv" "filt.csv").2 rfl⟩

/-- Claim C7, counterexample: with a present but empty raw series the
run does not skip gracefully: FilterPupilometry neither returns False
nor leaves the file system untouched, it fails (models the IndexError
of `p[1,0]` on the empty array), refuting the claim at this input. -/
theorem FilterPupilometry_empty_raw_cex :
    FilterPupilometry filtExtW [("raw.csv", [])] "raw.csv" "filt.csv" = none ∧
    FilterPupilometry filtExtW [("raw.csv", [])] "raw.csv" "filt.csv" ≠
      some (false, [("raw.csv", [])]) := by
  have h : FilterPupilometry filtExtW [("raw.csv", [])] "raw.csv" "filt.csv" = none := rfl
  refine ⟨h, ?_⟩
  rw [h]
  simp

/-- Claim C8: the point set handed to the RANSAC fitter is the
edge-pixel coordinate list with its two columns exchanged: every
row-major (row, col) of the edge image appears as (x, y) = (col, row),
no point lost or duplicated by the column swap. -/
theorem FitPupil_point_swap (ext : FitExt) (bw roi : Image) :
    FitPupil ext bw roi =
      ext.ransac ((nonzeroPoints (ext.canny bw)).map Prod.swap) roi ∧
    (swapPoints (nonzeroPoints (ext.canny bw))).length =
      (nonzeroPoints (ext.canny bw)).length ∧
    (∀ r c : ℕ,
      (swapPoints (nonzeroPoints (ext.canny bw))).count (c, r) =
        (nonzeroPoints (ext.canny bw)).count (r, c)) ∧
    (∀ r c : ℕ,
      (r, c) ∈ nonzeroPoints (ext.canny bw) ↔
        (c, r) ∈ swapPoints (nonzeroPoints (ext.canny bw))) := by
  refine ⟨rfl, List.length_map _ _, fun r c => ?_, fun r c => ?_⟩
  · exact count_map_swap (nonzeroPoints (ext.canny bw)) r c
  · exact (List.mem_map_of_injective Prod.swap_injective).symm

/-- Claim C9: the recorded pupil area is pi times the square of the
second axes component; it ignores the first axis, the center and the
rotation, and (for unequal axes) differs from the true ellipse area
pi * a * b. -/
theorem PupilArea_semi_axis :
    (∀ x0 y0 b a phi : ℚ, PupilArea ((x0, y0), (b, a), phi) = Real.pi * (a : ℝ) ^ 2) ∧
    (∀ x0 y0 b a phi cx cy b2 phi2 : ℚ,
      PupilArea ((x0, y0), (b, a), phi) = PupilArea ((cx, cy), (b2, a), phi2)) ∧
    (∀ (t : ℚ) (el : QEllipse) (blink : Bool) (art px py : ℚ),
      (WritePupilometryRow t el blink art px py)[1]? = some (PupilArea el)) ∧
    PupilArea ((0, 0), (2, 3), 0) ≠ Real.pi * ((3 : ℝ) * 2) := by
  refine ⟨fun _ _ _ _ _ => rfl, fun _ _ _ _ _ _ _ _ _ => rfl, fun _ _ _ _ _ _ => rfl, ?_⟩
  simp only [PupilArea]
  rw [show (((3 : ℚ) : ℝ)) = (3 : ℝ) by norm_num]
  intro h
  nlinarith [Real.pi_pos]

/-- Claim C10: SegmentPupil produces a defined mask iff the configured
method is "otsu" or "kmeans"; for any other method string it fails (the
Python code reads the never-assigned `blobs` variable and raises). -/
theorem SegmentPupil_method_precondition (ext : SegExternals) (method : String) (roi : Image) :
    (SegmentPupil ext method roi = none ↔ ¬(method = "otsu" ∨ method = "kmeans")) ∧
    ((SegmentPupil ext method roi).isSome ↔ (method = "otsu" ∨ method = "kmeans")) := by
  unfold SegmentPupil
  split_ifs with h1 h2
  · simp [h1]
  · simp [h1, h2]
  · simp [h1, h2]

end Mrgaze
